import Mathlib

/-!
# Verification of the AMX bond analyzer

A shallow embedding of the AMX daily bond report program.  Python floats are
modelled as exact rationals (`ℚ`), Python `None`-or-value scalars as an
inductive `Value` (or `Option` where a field is typed), and the stateless
pipeline functions as Lean functions.  Dates are modelled by proleptic
Gregorian calendar ordinals (`datetime.toordinal`); the program's
`datetime.now()` is modelled as an explicit "as of" calendar date at
midnight.  Python's `round(x, 2)` (round half to even) is modelled by
`round2`; its decimal behaviour on binary floats at exact .005 ties is not
reproduced (no claim depends on such a tie).
-/

namespace AMX

/-!
## Executable rational arithmetic

The library's `Rat.add`/`Rat.mul`/… are `@[irreducible]`, so closed witnesses
could not be checked by `decide` through them.  The embedding therefore
computes with `mkRat`-based operations `qadd`/`qsub`/`qmul`/`qdiv`/`qneg`,
each proved equal to the corresponding field operation of `ℚ`, so symbolic
statements may still use `+ - * /`.
-/

def qadd (a b : ℚ) : ℚ := mkRat (a.num * b.den + b.num * a.den) (a.den * b.den)

def qsub (a b : ℚ) : ℚ := mkRat (a.num * b.den - b.num * a.den) (a.den * b.den)

def qmul (a b : ℚ) : ℚ := mkRat (a.num * b.num) (a.den * b.den)

def qdiv (a b : ℚ) : ℚ := Rat.divInt (a.num * b.den) ((a.den : ℤ) * b.num)

def qneg (a : ℚ) : ℚ := mkRat (-a.num) a.den

theorem den_cast_ne_zero (a : ℚ) : ((a.den : ℚ)) ≠ 0 :=
  Nat.cast_ne_zero.mpr a.den_nz

theorem num_cast_eq (a : ℚ) : ((a.num : ℚ)) = a * (a.den : ℚ) :=
  (div_eq_iff (den_cast_ne_zero a)).1 (Rat.num_div_den a)

theorem qadd_eq (a b : ℚ) : qadd a b = a + b := by
  rw [qadd, Rat.mkRat_eq_div]
  push_cast
  rw [div_eq_iff (mul_ne_zero (den_cast_ne_zero a) (den_cast_ne_zero b)),
    num_cast_eq, num_cast_eq]
  ring

theorem qsub_eq (a b : ℚ) : qsub a b = a - b := by
  rw [qsub, Rat.mkRat_eq_div]
  push_cast
  rw [div_eq_iff (mul_ne_zero (den_cast_ne_zero a) (den_cast_ne_zero b)),
    num_cast_eq, num_cast_eq]
  ring

theorem qmul_eq (a b : ℚ) : qmul a b = a * b := by
  rw [qmul, Rat.mkRat_eq_div]
  push_cast
  rw [div_eq_iff (mul_ne_zero (den_cast_ne_zero a) (den_cast_ne_zero b)),
    num_cast_eq, num_cast_eq]
  ring

theorem qneg_eq (a : ℚ) : qneg a = -a := by
  rw [qneg, Rat.mkRat_eq_div]
  push_cast
  rw [div_eq_iff (den_cast_ne_zero a), num_cast_eq]
  ring

theorem qdiv_eq (a b : ℚ) : qdiv a b = a / b := by
  rcases eq_or_ne b 0 with rb | rb
  · subst rb
    show Rat.divInt (a.num * ((0 : ℚ).den : ℤ)) ((a.den : ℤ) * (0 : ℚ).num) = a / 0
    norm_num
  · have hbn : ((b.num : ℚ)) ≠ 0 :=
      Int.cast_ne_zero.mpr (Rat.num_ne_zero.mpr rb)
    rw [qdiv, Rat.divInt_eq_div]
    push_cast
    rw [div_eq_div_iff (mul_ne_zero (den_cast_ne_zero a) hbn) rb,
      num_cast_eq a, num_cast_eq b]
    ring

/-- A loosely-typed Python scalar as it appears in the JSON-shaped records:
`None`, a string, or a number (int/float collapsed to `ℚ`). -/
inductive Value where
  | pynone : Value
  | str : String → Value
  | num : ℚ → Value
deriving DecidableEq

/-- Python truthiness of a scalar: `None` and empty string and zero are falsy. -/
def Value.truthy : Value → Bool
  | .pynone => false
  | .str s => s ≠ ""
  | .num q => q ≠ 0

/-- Digits to a natural number, most significant first. -/
def digitsToNat (cs : List Char) : ℕ :=
  cs.foldl (fun n c => 10 * n + (c.toNat - 48)) 0

/-- Power-of-ten scaling by an integer exponent, as an executable rational. -/
def qpow10 (e : ℤ) : ℚ :=
  if 0 ≤ e then mkRat ((10 : ℕ) ^ e.toNat : ℕ) 1
  else mkRat 1 ((10 : ℕ) ^ (-e).toNat)

/-- Parse an unsigned decimal mantissa (`digits`, `digits.`, `.digits`,
`digits.digits`), returning its value and the unconsumed characters.  The
value `int.frac` equals `digits(int ++ frac) / 10 ^ |frac|` exactly. -/
def pyParseDecimal (cs : List Char) : Option (ℚ × List Char) :=
  let intPart := cs.takeWhile Char.isDigit
  let rest := cs.dropWhile Char.isDigit
  match rest with
  | '.' :: rest2 =>
    let fracPart := rest2.takeWhile Char.isDigit
    let rest3 := rest2.dropWhile Char.isDigit
    if intPart.isEmpty && fracPart.isEmpty then none
    else some (mkRat (digitsToNat (intPart ++ fracPart) : ℕ)
      ((10 : ℕ) ^ fracPart.length), rest3)
  | _ =>
    if intPart.isEmpty then none
    else some (mkRat (digitsToNat intPart : ℕ) 1, rest)

/-- Parse a signed exponent body (after `e`/`E`), as a signed power of ten. -/
def pyParseSignedExp (cs : List Char) : Option ℤ :=
  let p : ℤ × List Char :=
    match cs with
    | '+' :: r => (1, r)
    | '-' :: r => (-1, r)
    | r => (1, r)
  let ds := p.2.takeWhile Char.isDigit
  let tail := p.2.dropWhile Char.isDigit
  if ds.isEmpty ∨ tail ≠ [] then none
  else some (p.1 * (digitsToNat ds : ℤ))

/-- Parse the optional exponent suffix; anything else trailing is an error. -/
def pyParseExp (cs : List Char) : Option ℤ :=
  match cs with
  | [] => some 0
  | 'e' :: rest => pyParseSignedExp rest
  | 'E' :: rest => pyParseSignedExp rest
  | _ => none

/-- Model of Python's `float(s)` on strings: strip whitespace, optional sign,
decimal mantissa, optional exponent.  (Non-finite literals such as `inf`/`nan`
and PEP 515 underscores are outside the model; no analysed input uses them.) -/
def pyFloatOfString (s : String) : Option ℚ :=
  let cs := ((s.toList.dropWhile Char.isWhitespace).reverse.dropWhile
    Char.isWhitespace).reverse
  let p : Bool × List Char :=
    match cs with
    | '+' :: r => (false, r)
    | '-' :: r => (true, r)
    | r => (false, r)
  match pyParseDecimal p.2 with
  | none => none
  | some (q, rest) =>
    match pyParseExp rest with
    | none => none
    | some e =>
      let v := qmul q (qpow10 e)
      some (if p.1 then qneg v else v)

/-- Model of Python's `float(value)` on a loosely-typed scalar: `float(None)`
raises `TypeError` (every caller catches it into `None`), a string is parsed,
a number converts to itself. -/
def pyFloat : Value → Option ℚ
  | .pynone => none
  | .str s => pyFloatOfString s
  | .num q => some q

/-- `str(value).replace(",", ".")` for the scalars the program feeds it: on a
number, `str`/`float` round-trip is the identity (Python `repr` of a float
round-trips and contains no comma), on a string the single-character
replacement is a character map. -/
def replaceCommaDot (s : String) : String :=
  String.mk (s.toList.map (fun c => if c = ',' then '.' else c))

/-- A calendar date (proleptic Gregorian, year ≥ 1 as in Python `datetime`). -/
structure Date where
  year : ℕ
  month : ℕ
  day : ℕ
deriving DecidableEq

def isLeap (y : ℕ) : Bool :=
  (y % 4 == 0 && y % 100 != 0) || y % 400 == 0

def monthLengths (leap : Bool) : List ℕ :=
  [31, if leap then 29 else 28, 31, 30, 31, 30, 31, 31, 30, 31, 30, 31]

def daysInMonth (y m : ℕ) : ℕ :=
  (((monthLengths (isLeap y)).drop (m - 1)).headD 31)

def daysBeforeMonth (y m : ℕ) : ℕ :=
  ((monthLengths (isLeap y)).take (m - 1)).sum

/-- `datetime.toordinal`: day count with 0001-01-01 as day 1. -/
def dateOrdinal (d : Date) : ℕ :=
  365 * (d.year - 1) + (d.year - 1) / 4 - (d.year - 1) / 100 + (d.year - 1) / 400
    + daysBeforeMonth d.year d.month + d.day

/-- Split a character list on a separator character (`str.split` semantics). -/
def splitOnChar (sep : Char) (l : List Char) : List (List Char) :=
  l.foldr (fun c acc =>
    match acc with
    | [] => if c = sep then [[], []] else [[c]]
    | g :: gs => if c = sep then [] :: g :: gs else (c :: g) :: gs) [[]]

/-- Model of `datetime.strptime(s, "%Y-%m-%d")`: three dash-separated digit
groups (year up to 4 digits, month and day up to 2), validated against the
calendar; failure (`ValueError`) is `none`. -/
def parseDate (s : String) : Option Date :=
  match splitOnChar '-' s.toList with
  | [ys, ms, ds] =>
    if ys ≠ [] ∧ ys.length ≤ 4 ∧ ys.all Char.isDigit
        ∧ ms ≠ [] ∧ ms.length ≤ 2 ∧ ms.all Char.isDigit
        ∧ ds ≠ [] ∧ ds.length ≤ 2 ∧ ds.all Char.isDigit then
      let y := digitsToNat ys
      let m := digitsToNat ms
      let d := digitsToNat ds
      if 1 ≤ y ∧ 1 ≤ m ∧ m ≤ 12 ∧ 1 ≤ d ∧ d ≤ daysInMonth y m then
        some ⟨y, m, d⟩
      else none
    else none
  | _ => none

/-- Round half to even to the nearest integer (Python `round`'s tie rule). -/
def roundHalfEven (q : ℚ) : ℤ :=
  let n := ⌊q⌋
  let r := qsub q (mkRat n 1)
  if r < mkRat 1 2 then n
  else if mkRat 1 2 < r then n + 1
  else if n % 2 = 0 then n else n + 1

/-- Python `round(x, 2)`. -/
def round2 (q : ℚ) : ℚ :=
  mkRat (roundHalfEven (qmul q (mkRat 100 1))) 100

/-!
## Data model (`src/models.py`) and extraction strategies (`src/extractors.py`)
-/

/-- `models.Bond`: one snapshot per instrument.  `maturity_date` is typed
`str` in the dataclass and every construction site fills it with a string
(default `""`); `calculate`'s `is not None` check on it is therefore
vacuously true in the model. -/
structure Bond where
  ticker : String
  isin : String
  maturity_date : String
  short_name : Option String := none
  ask_price : Option ℚ := none
  bid_price : Option ℚ := none
  ask_yield : Option ℚ := none
  cpn_rate : Option ℚ := none
  cpn_frequency : Option String := none
  par_value : Option ℚ := none
  japanese_yield : Option ℚ := none
deriving DecidableEq

/-- A nested price/yield quote record.  `dict.get` returns `None` for an
absent key, indistinguishable downstream from a stored `None`, so absent
keys are folded into the default `Value.pynone`. -/
structure QuoteDict where
  ask : Value := Value.pynone
  bid : Value := Value.pynone
  avg : Value := Value.pynone
  close : Value := Value.pynone
deriving DecidableEq

/-- `PriceExtractor._safe_float`: `if value and value != "-": try float(value)`.
The truthiness guard sends `None`, `""` and numeric `0`/`0.0` to `None`. -/
def PriceExtractor.safeFloat (value : Value) : Option ℚ :=
  if value.truthy && value != Value.str "-" then pyFloat value else none

/-- Python truthiness of an `Optional[float]` (the `if result := ...` walrus
guards): `None` and `0.0` are falsy. -/
def truthyOptFloat : Option ℚ → Bool
  | none => false
  | some q => q != 0

/-- `AskPriceExtractor.extract`: ask, then avg, then close; a parse result of
`0.0` fails the walrus truthiness test and falls through; a non-dict record
(modelled `none`) yields `None`. -/
def AskPriceExtractor.extract (price_dict : Option QuoteDict) : Option ℚ :=
  match price_dict with
  | none => none
  | some d =>
    let r1 := PriceExtractor.safeFloat d.ask
    if truthyOptFloat r1 then r1
    else
      let r2 := PriceExtractor.safeFloat d.avg
      if truthyOptFloat r2 then r2
      else
        let r3 := PriceExtractor.safeFloat d.close
        if truthyOptFloat r3 then r3 else none

/-- `BidPriceExtractor.extract`: the `bid` field only, no fallback. -/
def BidPriceExtractor.extract (price_dict : Option QuoteDict) : Option ℚ :=
  match price_dict with
  | none => none
  | some d => PriceExtractor.safeFloat d.bid

/-- `YieldExtractor.extract`: same ask/avg/close chain on the yield record. -/
def YieldExtractor.extract (yield_dict : Option QuoteDict) : Option ℚ :=
  match yield_dict with
  | none => none
  | some d =>
    let r1 := PriceExtractor.safeFloat d.ask
    if truthyOptFloat r1 then r1
    else
      let r2 := PriceExtractor.safeFloat d.avg
      if truthyOptFloat r2 then r2
      else
        let r3 := PriceExtractor.safeFloat d.close
        if truthyOptFloat r3 then r3 else none

/-!
## Parsers and calculator (`src/calculators.py`, `src/analyzer.py` helpers)
-/

/-- `CouponParser.parse_rate`: falsy input or the literal string `"None"` is
`None`; otherwise `float(str(value).replace(",", "."))`, failures to `None`.
On an already-numeric value, `str`/`float` round-trip is the identity. -/
def CouponParser.parseRate (cpn_rate_str : Value) : Option ℚ :=
  if !cpn_rate_str.truthy || cpn_rate_str == Value.str "None" then none
  else
    match cpn_rate_str with
    | .pynone => none
    | .str s => pyFloatOfString (replaceCommaDot s)
    | .num q => some q

/-- `BondAnalyzer._parse_par_value`: falsy input is `None`; otherwise
`float(str(value).replace(",", "."))`, failures to `None`. -/
def BondAnalyzer.parseParValue (value : Value) : Option ℚ :=
  if !value.truthy then none
  else
    match value with
    | .pynone => none
    | .str s => pyFloatOfString (replaceCommaDot s)
    | .num q => some q

/-- `BondAnalyzer._safe_float`: explicit `None`/`""`/`"-"` checks (not
truthiness), then `float(value)` with failures to `None`; a numeric `0.0`
passes through as `0.0`. -/
def BondAnalyzer.safeFloat (value : Value) : Option ℚ :=
  if value == Value.pynone || value == Value.str "" || value == Value.str "-" then none
  else pyFloat value

/-- Python `a or b` on `Optional[float]` operands (the avg/close fallbacks in
`_create_bond_from_instrument`): left if truthy (non-`None` and nonzero),
else right. -/
def pyOrFloat (a b : Option ℚ) : Option ℚ :=
  if truthyOptFloat a then a else b

/-- `JapaneseYieldCalculator._calculate_years_to_maturity`:
`(strptime(s) - now).days / 365.25`, `strptime` failure to `None`.  `now` is
modelled as the as-of calendar date at midnight. -/
def JapaneseYieldCalculator.yearsToMaturity (asOf : Date) (maturity_date_str : String) :
    Option ℚ :=
  match parseDate maturity_date_str with
  | none => none
  | some maturity_date =>
    some (qdiv (qsub (mkRat (dateOrdinal maturity_date : ℤ) 1)
      (mkRat (dateOrdinal asOf : ℤ) 1)) (mkRat 36525 100))

/-- `JapaneseYieldCalculator.calculate`: validate presence of ask price,
coupon rate and par value (`maturity_date` is a string, always present);
compute years to maturity, reject `None` or `≤ 0`; then the simple-yield
formula, rounded to 2 decimals, guarded by `actual_price > 0`. -/
def JapaneseYieldCalculator.calculate (asOf : Date) (bond : Bond) : Option ℚ :=
  match bond.ask_price, bond.cpn_rate, bond.par_value with
  | some ask_price, some cpn_rate, some par_value =>
    match JapaneseYieldCalculator.yearsToMaturity asOf bond.maturity_date with
    | none => none
    | some years_to_maturity =>
      if years_to_maturity ≤ 0 then none
      else
        let actual_price := qmul (qdiv ask_price (mkRat 100 1)) par_value
        let annual_coupon := qmul (qdiv cpn_rate (mkRat 100 1)) par_value
        let annual_capital_gain := qdiv (qsub par_value actual_price) years_to_maturity
        if 0 < actual_price then
          some (round2 (qmul (qdiv (qadd annual_coupon annual_capital_gain) actual_price)
            (mkRat 100 1)))
        else none
  | _, _, _ => none

/-!
## Repository (`src/repository.py`) and merge pipeline (`src/analyzer.py`)

Network fetching is the external collaborator: the instrument table, the
same-day market table and the per-instrument history are parameters.  A row
field read with `row.get(key)` is an `Option` (absent key gives `None`);
reads with a `.get(key, default)` default apply `getD` at the use site, as
the code does.
-/

/-- A row of the instrument reference table (`getInstruments`). -/
structure Instrument where
  isin : Option String := none
  ticker : Option String := none
  currency : Option String := none
  maturity_date : Option String := none
  short_name_en : Option String := none
  cpn_rate : Value := Value.pynone
  cpn_frequency_en : Option String := none
  per_value : Value := Value.pynone
deriving DecidableEq

/-- A row of the same-day market table (`getMarketData`); `price`/`yield` are
nested quote records, `none` modelling a non-dict value (the absent-key
default `{}` is `some {}`). -/
structure MarketRow where
  isin : Option String := none
  ticker : Option String := none
  cur : Option String := none
  maturity_date : Option String := none
  short_name_en : Option String := none
  price : Option QuoteDict := some {}
  yield : Option QuoteDict := some {}
deriving DecidableEq

/-- One dated snapshot from an instrument's `market_data` history. -/
structure MarketSnapshot where
  order_date : String := ""
  best_ask_price : Value := Value.pynone
  best_bid_price : Value := Value.pynone
  best_ask_yield : Value := Value.pynone
  avg_price : Value := Value.pynone
  close_price : Value := Value.pynone
  avg_yield : Value := Value.pynone
  close_yield : Value := Value.pynone
deriving DecidableEq

/-- Lexicographic code-point order on character lists (Python `str <`). -/
def charListLt : List Char → List Char → Bool
  | _, [] => false
  | [], _ :: _ => true
  | a :: as, b :: bs =>
    if a.toNat < b.toNat then true
    else if b.toNat < a.toNat then false
    else charListLt as bs

/-- Python `a < b` on strings: lexicographic in code points. -/
def pyStrLt (a b : String) : Bool := charListLt a.toList b.toList

/-- `sorted(history, key=order_date, reverse=True)[0]`: the first element
with the maximal order date (Python's sort is stable), `none` on `[]`. -/
def latestSnapshot (history : List MarketSnapshot) : Option MarketSnapshot :=
  match history with
  | [] => none
  | x :: xs =>
    some ((x :: xs).foldl (fun best cur =>
      if pyStrLt best.order_date cur.order_date then cur else best) x)

/-- `AMXRepository.get_latest_market_data_for_instrument`: a failed or falsy
detail fetch gives `None`; an empty `market_data` list gives `None`;
otherwise the latest snapshot by order date. -/
def getLatestMarketDataForInstrument (fetchDetail : String → Option (List MarketSnapshot))
    (isin : String) : Option MarketSnapshot :=
  match fetchDetail isin with
  | none => none
  | some history => latestSnapshot history

/-- `instruments_df.set_index("isin").to_dict("index")` followed by
`.get(isin, {})`: the last instrument whose `isin` equals the key wins. -/
def instrumentsLookup (instrs : List Instrument) (k : Option String) : Option Instrument :=
  (instrs.filter (fun i => i.isin == k)).getLast?

/-- Attach the derived field: `bond.japanese_yield = calculator.calculate(bond)`. -/
def attachYield (asOf : Date) (b : Bond) : Bond :=
  { b with japanese_yield := JapaneseYieldCalculator.calculate asOf b }

/-- `BondAnalyzer._create_bond` (same-day mode): driven by a market row,
joined against the instrument lookup; never returns `None` (a missing ISIN
only defaults to `""`). -/
def BondAnalyzer.createBond (asOf : Date) (instrs : List Instrument) (row : MarketRow) :
    Bond :=
  let instrument := (instrumentsLookup instrs row.isin).getD {}
  attachYield asOf
    { ticker := row.ticker.getD ""
      isin := row.isin.getD ""
      maturity_date := row.maturity_date.getD ""
      short_name := row.short_name_en
      ask_price := AskPriceExtractor.extract row.price
      bid_price := BidPriceExtractor.extract row.price
      ask_yield := YieldExtractor.extract row.yield
      cpn_rate := CouponParser.parseRate instrument.cpn_rate
      cpn_frequency := instrument.cpn_frequency_en
      par_value := BondAnalyzer.parseParValue instrument.per_value }

/-- `BondAnalyzer._create_bond_from_instrument` (exhaustive mode): driven by
an instrument, with optional latest market data; falsy market data leaves
all market-derived fields `None`. -/
def BondAnalyzer.createBondFromInstrument (asOf : Date) (instrument : Instrument)
    (market_data : Option MarketSnapshot) : Bond :=
  let prices : Option ℚ × Option ℚ × Option ℚ :=
    match market_data with
    | none => (none, none, none)
    | some md =>
      let ask_price := BondAnalyzer.safeFloat md.best_ask_price
      let bid_price := BondAnalyzer.safeFloat md.best_bid_price
      let ask_yield := BondAnalyzer.safeFloat md.best_ask_yield
      let ask_price := if ask_price = none then
          pyOrFloat (BondAnalyzer.safeFloat md.avg_price)
            (BondAnalyzer.safeFloat md.close_price)
        else ask_price
      let ask_yield := if ask_yield = none then
          pyOrFloat (BondAnalyzer.safeFloat md.avg_yield)
            (BondAnalyzer.safeFloat md.close_yield)
        else ask_yield
      (ask_price, bid_price, ask_yield)
  attachYield asOf
    { ticker := instrument.ticker.getD ""
      isin := instrument.isin.getD ""
      maturity_date := instrument.maturity_date.getD ""
      short_name := instrument.short_name_en
      ask_price := prices.1
      bid_price := prices.2.1
      ask_yield := prices.2.2
      cpn_rate := CouponParser.parseRate instrument.cpn_rate
      cpn_frequency := instrument.cpn_frequency_en
      par_value := BondAnalyzer.parseParValue instrument.per_value }

/-- `b.japanese_yield or 0`: the sort key of `bonds.sort(key=..., reverse=True)`. -/
def Bond.sortKey (b : Bond) : ℚ := b.japanese_yield.getD 0

/-- Insertion step of a stable descending sort by `Bond.sortKey`: skip the
strictly greater prefix, placing the new element before any equal key. -/
def insertDesc (x : Bond) : List Bond → List Bond
  | [] => [x]
  | y :: ys => if Bond.sortKey x < Bond.sortKey y then y :: insertDesc x ys else x :: y :: ys

/-- `bonds.sort(key=lambda b: b.japanese_yield or 0, reverse=True)`: Python's
stable descending sort.  A stable sort by a total preorder is unique, so any
stable descending insertion sort is extensionally the same function. -/
def sortBonds : List Bond → List Bond
  | [] => []
  | x :: xs => insertDesc x (sortBonds xs)

/-- `BondAnalyzer.analyze` (same-day mode): filter both tables by currency,
build one Bond per market row (the `if bond:` guard is always true — a
dataclass instance is truthy), sort by yield descending. -/
def BondAnalyzer.analyze (asOf : Date) (currency : String)
    (instrs : List Instrument) (market : List MarketRow) : List Bond :=
  let instruments_filtered := instrs.filter (fun i => i.currency == some currency)
  let market_filtered := market.filter (fun r => r.cur == some currency)
  sortBonds (market_filtered.map (BondAnalyzer.createBond asOf instruments_filtered))

/-- `BondAnalyzer.analyze_all` (exhaustive mode): filter instruments by
currency, skip falsy ISINs (`None` or `""`), fetch each instrument's latest
snapshot, build one Bond per remaining instrument, sort. -/
def BondAnalyzer.analyzeAll (asOf : Date) (currency : String)
    (fetchDetail : String → Option (List MarketSnapshot))
    (instrs : List Instrument) : List Bond :=
  let instruments_filtered := instrs.filter (fun i => i.currency == some currency)
  sortBonds (instruments_filtered.filterMap (fun i =>
    match i.isin with
    | none => none
    | some s =>
      if s = "" then none
      else some (BondAnalyzer.createBondFromInstrument asOf i
        (getLatestMarketDataForInstrument fetchDetail s))))

/-!
## Report formatting (`src/formatters.py`) and the entry point (`main.py`)
-/

/-- Python `f"{s:<w}"`: left-justify, pad with spaces (by code points). -/
def pyPadRight (s : String) (w : ℕ) : String :=
  s ++ String.mk (List.replicate (w - s.length) ' ')

/-- Python `f"{s:>w}"`: right-justify, pad with spaces. -/
def pyPadLeft (s : String) (w : ℕ) : String :=
  String.mk (List.replicate (w - s.length) ' ') ++ s

/-- Python `f"{x:.2f}"` on an exact value: two decimals, ties to even.
(Binary-float representation error at exact ties is outside the model.) -/
def pyFormat2f (q : ℚ) : String :=
  let n := roundHalfEven (qmul q (mkRat 100 1))
  let a := n.natAbs
  let frac := a % 100
  (if n < 0 then "-" else "") ++ toString (a / 100) ++ "."
    ++ (if frac < 10 then "0" ++ toString frac else toString frac)

/-- The static lines that `format_for_telegram` appends before the rows:
title, date line, section line, `<pre>`, column header, 45 dashes. -/
def telegramHeaderLines (today : String) : List String :=
  ["📊 <b>AMX Bond Yields Report</b>",
   "📅 " ++ today ++ "\n",
   "<b>Top Bonds by Japanese Yield:</b>\n",
   "<pre>",
   pyPadRight "Ticker" 8 ++ " " ++ pyPadRight "Maturity" 12 ++ " "
     ++ pyPadLeft "Price" 7 ++ " " ++ pyPadLeft "Cpn%" 5 ++ " " ++ pyPadLeft "Yield%" 6,
   String.mk (List.replicate 45 '-')]

/-- One fixed-width table row for a bond whose yield `jy` is present.  The
Python `:.2f` fields would raise `TypeError` on a `None` `ask_price` or
`cpn_rate`; that state is unreachable from the pipeline (a set yield implies
both are present), and the model totalizes it with `getD 0`. -/
def telegramBondRow (b : Bond) (jy : ℚ) : String :=
  pyPadRight b.ticker 8 ++ " " ++ pyPadRight b.maturity_date 12 ++ " "
    ++ pyPadLeft (pyFormat2f (b.ask_price.getD 0)) 7 ++ " "
    ++ pyPadLeft (pyFormat2f (b.cpn_rate.getD 0)) 5 ++ " "
    ++ pyPadLeft (pyFormat2f jy) 6

/-- `BondReportFormatter.format_for_telegram(bonds, top_n)`: header lines,
one row per bond of `bonds[:top_n]` whose yield is set, `</pre>`, and a
footer with `len(bonds)`.  `datetime.now().strftime("%Y-%m-%d")` is the
`today` parameter. -/
def BondReportFormatter.formatForTelegram (today : String) (bonds : List Bond)
    (top_n : ℕ) : String :=
  let lines := (bonds.take top_n).foldl (fun acc b =>
    match b.japanese_yield with
    | some jy => acc ++ [telegramBondRow b jy]
    | none => acc) (telegramHeaderLines today)
  String.intercalate "\n"
    (lines ++ ["</pre>", "\n📈 Total AMD bonds analyzed: " ++ toString bonds.length])

/-- The attribute names of a `Bond` instance, i.e. the columns of
`pd.DataFrame([vars(b) for b in bonds])` when `bonds` is non-empty;
`pd.DataFrame([])` has no columns at all. -/
def bondFieldNames : List String :=
  ["ticker", "isin", "maturity_date", "short_name", "ask_price", "bid_price",
   "ask_yield", "cpn_rate", "cpn_frequency", "par_value", "japanese_yield"]

def dataFrameColumns (bonds : List Bond) : List String :=
  match bonds with
  | [] => []
  | _ => bondFieldNames

/-- The `display_columns` list of `format_for_console`. -/
def displayColumns : List String :=
  ["ticker", "maturity_date", "ask_price", "cpn_rate", "cpn_frequency", "japanese_yield"]

/-- The selected, truncated table `df[display_columns].head(top_n)` (its
`to_string` rendering is presentation only and not modelled further). -/
structure ConsoleTable where
  columns : List String
  rows : List Bond
deriving DecidableEq

/-- `BondReportFormatter.format_for_console`: builds the bond data frame and
selects `display_columns`; selecting labels missing from the frame raises
`KeyError` (modelled `Except.error ()`), which is what happens on the empty
frame, whose column set is empty. -/
def BondReportFormatter.formatForConsole (bonds : List Bond) (top_n : ℕ) :
    Except Unit ConsoleTable :=
  if displayColumns.all (fun c => (dataFrameColumns bonds).contains c) then
    Except.ok ⟨displayColumns, bonds.take top_n⟩
  else Except.error ()

/-- `main.SUPPORTED_CURRENCIES`. -/
def SUPPORTED_CURRENCIES : List String := ["AMD", "USD", "EUR"]

/-- The declared parameters of `BondReportFormatter.format_for_telegram`
(after the bonds list): `bonds`, `top_n`.  There is no `**kwargs`. -/
def formatForTelegramParams : List String := ["bonds", "top_n"]

/-- The keyword arguments `main` passes to `format_for_telegram` beyond the
positional bonds list: `currency=currency`. -/
def mainTelegramKeywords : List String := ["currency"]

/-- Python call compatibility: every keyword argument must name a declared
parameter, else the call raises `TypeError` before the body runs. -/
def telegramCallOk : Bool :=
  mainTelegramKeywords.all (fun k => formatForTelegramParams.contains k)

/-- The currency loop of `main`'s Telegram leg: an empty bond list only
prints a warning; a non-empty one calls the formatter — an invocation whose
keywords do not match the signature raises `TypeError` — then sends.  An
uncaught exception aborts the loop (`Except.error`); success carries the
currencies whose message was built and sent. -/
def sendLoop (all_bonds : String → List Bond) (sent : List String) :
    List String → Except Unit (List String)
  | [] => Except.ok sent
  | currency :: rest =>
    if all_bonds currency = [] then sendLoop all_bonds sent rest
    else if telegramCallOk then sendLoop all_bonds (sent ++ [currency]) rest
    else Except.error ()

/-- The Telegram leg of `main` once sending is enabled and both credentials
are present. -/
def mainSendTelegramReports (all_bonds : String → List Bond) :
    Except Unit (List String) :=
  sendLoop all_bonds [] SUPPORTED_CURRENCIES

/-!
## The spec's end-to-end example, staged through the parsers
-/

def exampleAsOf : Date := ⟨2025, 1, 1⟩

/-- The end-to-end scenario bond: coupon `"9,5"`, par `"1000"`, maturity
`2026-01-01`, ask `"98.0"`, all run through the program's own parsers. -/
def exampleBond : Bond :=
  { ticker := "AMB1"
    isin := "AMB1"
    maturity_date := "2026-01-01"
    ask_price := AskPriceExtractor.extract (some { ask := Value.str "98.0" })
    cpn_rate := CouponParser.parseRate (Value.str "9,5")
    par_value := BondAnalyzer.parseParValue (Value.str "1000") }

/-- The same scenario as an instrument record (exhaustive-mode staging). -/
def exampleInstrument : Instrument :=
  { isin := some "AMGOOD1"
    ticker := some "AMB1"
    currency := some "AMD"
    maturity_date := some "2026-01-01"
    cpn_rate := Value.str "9,5"
    per_value := Value.str "1000" }

/-- A single historical snapshot quoting a best ask of 98.0. -/
def exampleSnapshot : MarketSnapshot :=
  { order_date := "2025-01-01"
    best_ask_price := Value.num 98 }

/-!
## Properties of the stable descending sort
-/

theorem insertDesc_perm (x : Bond) (l : List Bond) :
    List.Perm (insertDesc x l) (x :: l) := by
  induction l with
  | nil => exact List.Perm.refl _
  | cons y ys ih =>
    by_cases h : Bond.sortKey x < Bond.sortKey y
    · rw [insertDesc, if_pos h]
      exact (ih.cons y).trans (List.Perm.swap x y ys)
    · rw [insertDesc, if_neg h]

theorem sortBonds_perm (l : List Bond) : List.Perm (sortBonds l) l := by
  induction l with
  | nil => exact List.Perm.refl _
  | cons x xs ih => exact (insertDesc_perm x (sortBonds xs)).trans (ih.cons x)

theorem insertDesc_pairwise {x : Bond} {l : List Bond}
    (h : l.Pairwise (fun a b => Bond.sortKey b ≤ Bond.sortKey a)) :
    (insertDesc x l).Pairwise (fun a b => Bond.sortKey b ≤ Bond.sortKey a) := by
  induction l with
  | nil => simp [insertDesc]
  | cons y ys ih =>
    rcases List.pairwise_cons.1 h with ⟨hy, hys⟩
    by_cases hlt : Bond.sortKey x < Bond.sortKey y
    · rw [insertDesc, if_pos hlt]
      refine List.pairwise_cons.2 ⟨?_, ih hys⟩
      intro z hz
      rcases List.mem_cons.1 (((insertDesc_perm x ys).mem_iff).1 hz) with rfl | hz'
      · exact le_of_lt hlt
      · exact hy z hz'
    · rw [insertDesc, if_neg hlt]
      refine List.pairwise_cons.2 ⟨?_, h⟩
      intro z hz
      rcases List.mem_cons.1 hz with rfl | hz'
      · exact le_of_not_lt hlt
      · exact le_trans (hy z hz') (le_of_not_lt hlt)

theorem sortBonds_pairwise (l : List Bond) :
    (sortBonds l).Pairwise (fun a b => Bond.sortKey b ≤ Bond.sortKey a) := by
  induction l with
  | nil => simp [sortBonds]
  | cons x xs ih => exact insertDesc_pairwise ih

theorem insertDesc_filter (x : Bond) (l : List Bond) (c : ℚ) :
    (insertDesc x l).filter (fun b => Bond.sortKey b == c)
      = (if Bond.sortKey x == c then [x] else [])
        ++ l.filter (fun b => Bond.sortKey b == c) := by
  induction l with
  | nil =>
    by_cases hx : Bond.sortKey x == c <;> simp [insertDesc, List.filter, hx]
  | cons y ys ih =>
    by_cases hlt : Bond.sortKey x < Bond.sortKey y
    · rw [insertDesc, if_pos hlt]
      by_cases hx : Bond.sortKey x = c
      · have hyne : (Bond.sortKey y == c) = false := by
          refine beq_eq_false_iff_ne.2 ?_
          intro hy
          rw [hx] at hlt
          rw [hy] at hlt
          exact lt_irrefl c hlt
        have hx0 : (Bond.sortKey x == c) = true := by simp [hx]
        simp [List.filter_cons, hyne, hx0, ih]
      · have hx' : (Bond.sortKey x == c) = false := beq_eq_false_iff_ne.2 hx
        simp [List.filter_cons, hx', ih]
    · rw [insertDesc, if_neg hlt]
      by_cases hx : Bond.sortKey x == c <;> simp [List.filter_cons, hx]

theorem sortBonds_filter_key (l : List Bond) (c : ℚ) :
    (sortBonds l).filter (fun b => Bond.sortKey b == c)
      = l.filter (fun b => Bond.sortKey b == c) := by
  induction l with
  | nil => rfl
  | cons x xs ih =>
    rw [sortBonds, insertDesc_filter, ih, List.filter_cons]
    by_cases hx : Bond.sortKey x == c <;> simp [hx]

/-- C5: The pipeline sort `bonds.sort(key=lambda b: b.japanese_yield or 0,
reverse=True)` is a permutation of its input, descending in the
`None`-as-`0` key, with the non-`None` yields descending along the output,
and stable: for every key value the sublist with that key is unchanged. -/
theorem c5_theorem (l : List Bond) :
    List.Perm (sortBonds l) l
    ∧ (sortBonds l).Pairwise (fun a b => Bond.sortKey b ≤ Bond.sortKey a)
    ∧ ((sortBonds l).filterMap Bond.japanese_yield).Pairwise (fun x y => y ≤ x)
    ∧ ∀ c : ℚ, (sortBonds l).filter (fun b => Bond.sortKey b == c)
        = l.filter (fun b => Bond.sortKey b == c) := by
  refine ⟨sortBonds_perm l, sortBonds_pairwise l, ?_, sortBonds_filter_key l⟩
  refine List.pairwise_filterMap.2 ?_
  refine (sortBonds_pairwise l).imp ?_
  intro a b hab x hx y hy
  have ha : Bond.sortKey a = x := by simp [Bond.sortKey, Option.mem_def.1 hx]
  have hb : Bond.sortKey b = y := by simp [Bond.sortKey, Option.mem_def.1 hy]
  rw [← ha, ← hb]
  exact hab

/-!
## Extraction and numeric-parsing claims
-/

/-- Drop a parsed value of exactly zero (the claim's "treated as absent"). -/
def nonZeroFilter (o : Option ℚ) : Option ℚ :=
  match o with
  | some r => if r = 0 then none else some r
  | none => none

/-- The claim's reading of the fallback policy: the first of the given
values whose parse is a nonzero float. -/
def firstNonZeroParse (vs : List Value) : Option ℚ :=
  vs.findSome? (fun v => nonZeroFilter (PriceExtractor.safeFloat v))

theorem walrus_step (o k : Option ℚ) :
    (if truthyOptFloat o = true then o else k)
      = (match nonZeroFilter o with
         | some b => some b
         | none => k) := by
  rcases o with _ | r
  · simp [truthyOptFloat, nonZeroFilter]
  · by_cases hr : r = 0 <;> simp [truthyOptFloat, nonZeroFilter, hr]

/-- C3: Ask-price extraction tries `ask`, then `avg`, then `close`, returning
the first value that parses to a nonzero float (a parse of exactly `0.0` is
skipped); the record `{ask: None, avg: 101.5, close: 99.0}` gives `101.5`,
the all-dash record gives `None`, and a non-dict or absent (empty) record
gives `None` without raising. -/
theorem c3_theorem :
    (∀ d : QuoteDict, AskPriceExtractor.extract (some d)
        = firstNonZeroParse [d.ask, d.avg, d.close])
    ∧ AskPriceExtractor.extract none = none
    ∧ AskPriceExtractor.extract (some {}) = none
    ∧ AskPriceExtractor.extract
        (some { ask := Value.pynone, avg := Value.num (mkRat 203 2),
                close := Value.num 99 }) = some (mkRat 203 2)
    ∧ (mkRat 203 2 : ℚ) = 203 / 2
    ∧ AskPriceExtractor.extract
        (some { ask := Value.str "-", avg := Value.str "-",
                close := Value.str "-" }) = none := by
  refine ⟨?_, rfl, by decide, by decide, ?_, by decide⟩
  · intro d
    simp only [AskPriceExtractor.extract, firstNonZeroParse, List.findSome?_cons,
      List.findSome?_nil]
    rw [walrus_step, walrus_step, walrus_step]
    rcases h1 : nonZeroFilter (PriceExtractor.safeFloat d.ask) with _ | r1 <;>
      rcases h2 : nonZeroFilter (PriceExtractor.safeFloat d.avg) with _ | r2 <;>
        rcases h3 : nonZeroFilter (PriceExtractor.safeFloat d.close) with _ | r3 <;>
          simp [h1, h2, h3]
  · rw [Rat.mkRat_eq_div]
    norm_num

/-- C4 (amended): both `_safe_float` parsers return `None` on `None`, `""`,
`"-"` and unconvertible strings, and never raise (they are total); the
analyzer's parser is the identity on every numeric input including `0`,
while the extractors' parser is the identity only on nonzero numbers and
maps `0`/`0.0` to `None` (its guard is truthiness, not a `None`-check). -/
theorem c4_theorem :
    (BondAnalyzer.safeFloat Value.pynone = none
      ∧ BondAnalyzer.safeFloat (Value.str "") = none
      ∧ BondAnalyzer.safeFloat (Value.str "-") = none
      ∧ BondAnalyzer.safeFloat (Value.str "abc") = none)
    ∧ (PriceExtractor.safeFloat Value.pynone = none
      ∧ PriceExtractor.safeFloat (Value.str "") = none
      ∧ PriceExtractor.safeFloat (Value.str "-") = none
      ∧ PriceExtractor.safeFloat (Value.str "abc") = none)
    ∧ (∀ q : ℚ, BondAnalyzer.safeFloat (Value.num q) = some q)
    ∧ (∀ q : ℚ, q ≠ 0 → PriceExtractor.safeFloat (Value.num q) = some q)
    ∧ PriceExtractor.safeFloat (Value.num 0) = none := by
  refine ⟨by decide, by decide, fun q => rfl, ?_, by decide⟩
  intro q hq
  simp [PriceExtractor.safeFloat, Value.truthy, pyFloat, hq]

/-- C4 counterexample: the extractors' `_safe_float` does not return `0.0`
for the float `0.0` — its truthiness guard maps it to `None`, so the claim
that parsing any float `x`, including `x = 0`, returns `x` itself fails. -/
theorem c4_counterexample :
    PriceExtractor.safeFloat (Value.num 0) = none
    ∧ PriceExtractor.safeFloat (Value.num 0) ≠ some 0 := by decide

theorem c4_witness :
    (5 : ℚ) ≠ 0 ∧ PriceExtractor.safeFloat (Value.num 5) = some 5 :=
  ⟨by norm_num, c4_theorem.2.2.2.1 5 (by norm_num)⟩

/-!
## Report assembly and entry-point claims
-/

theorem telegram_rows_foldl (l : List Bond) (acc : List String) :
    (l.foldl (fun acc b =>
      match b.japanese_yield with
      | some jy => acc ++ [telegramBondRow b jy]
      | none => acc) acc)
      = acc ++ l.filterMap (fun b => b.japanese_yield.map (telegramBondRow b)) := by
  induction l generalizing acc with
  | nil => simp
  | cons b bs ih =>
    rcases h : b.japanese_yield with _ | jy
    · simp [List.foldl_cons, h, ih]
    · simp [List.foldl_cons, h, ih]

/-- C8: the notification text is the header block (title and date), one
fixed-width row per bond with a set yield among the first 15 of the sorted
list (a `None`-yield bond in the top 15 produces no row), and a footer with
the total count of all analysed bonds; the empty list still renders the
header and a footer with total `0`. -/
theorem c8_theorem :
    (∀ (today : String) (bonds : List Bond),
      BondReportFormatter.formatForTelegram today bonds 15
        = String.intercalate "\n" (telegramHeaderLines today
            ++ (bonds.take 15).filterMap (fun b => b.japanese_yield.map (telegramBondRow b))
            ++ ["</pre>", "\n📈 Total AMD bonds analyzed: " ++ toString bonds.length]))
    ∧ BondReportFormatter.formatForTelegram "2025-06-01" [] 15
        = "📊 <b>AMX Bond Yields Report</b>\n📅 2025-06-01\n\n"
          ++ "<b>Top Bonds by Japanese Yield:</b>\n\n<pre>\n"
          ++ "Ticker   Maturity       Price  Cpn% Yield%\n"
          ++ "---------------------------------------------\n"
          ++ "</pre>\n\n📈 Total AMD bonds analyzed: 0" := by
  constructor
  · intro today bonds
    rw [BondReportFormatter.formatForTelegram, telegram_rows_foldl]
  · set_option maxRecDepth 8000 in decide

/-- C10: console rendering of the empty bond list fails — the empty data
frame has no columns, so selecting the display columns raises — while every
non-empty list yields a table with exactly the six display columns and at
most 15 rows. -/
theorem c10_theorem :
    BondReportFormatter.formatForConsole [] 15 = Except.error ()
    ∧ ∀ bonds : List Bond, bonds ≠ [] →
        BondReportFormatter.formatForConsole bonds 15
          = Except.ok ⟨displayColumns, bonds.take 15⟩
        ∧ (bonds.take 15).length ≤ 15 := by
  refine ⟨rfl, ?_⟩
  intro bonds h
  refine ⟨?_, List.length_take_le 15 bonds⟩
  match bonds, h with
  | b :: bs, _ =>
    have hcond : (displayColumns.all fun c => (dataFrameColumns (b :: bs)).contains c)
        = true := rfl
    rw [BondReportFormatter.formatForConsole, if_pos hcond]

theorem c10_witness :
    BondReportFormatter.formatForConsole
        [{ ticker := "T", isin := "I", maturity_date := "2026-01-01" }] 15
      = Except.ok ⟨displayColumns,
          [{ ticker := "T", isin := "I", maturity_date := "2026-01-01" }]⟩
    ∧ ([({ ticker := "T", isin := "I", maturity_date := "2026-01-01" } : Bond)].take 15).length
        ≤ 15 := by
  have h := c10_theorem.2
    [{ ticker := "T", isin := "I", maturity_date := "2026-01-01" }] (by decide)
  exact ⟨h.1, h.2⟩

/-- C9: with sending enabled, credentials configured and at least one
currency holding a non-empty bond list, `main`'s notification step raises
before any message is sent: the call passes a `currency` keyword that the
formatter's `(bonds, top_n)` signature does not declare, so the invocation
is a `TypeError`, which aborts the loop with no message produced. -/
theorem c9_theorem (all_bonds : String → List Bond)
    (h : ∃ c ∈ SUPPORTED_CURRENCIES, all_bonds c ≠ []) :
    telegramCallOk = false
    ∧ mainSendTelegramReports all_bonds = Except.error () := by
  refine ⟨by decide, ?_⟩
  have hok : telegramCallOk = false := by decide
  by_cases hA : all_bonds "AMD" = []
  · by_cases hU : all_bonds "USD" = []
    · by_cases hE : all_bonds "EUR" = []
      · exfalso
        rcases h with ⟨c, hc, hne⟩
        simp only [SUPPORTED_CURRENCIES, List.mem_cons, List.mem_singleton,
          List.not_mem_nil, or_false] at hc
        rcases hc with rfl | rfl | rfl <;> contradiction
      · simp [mainSendTelegramReports, SUPPORTED_CURRENCIES, sendLoop, hA, hU, hE, hok]
    · simp [mainSendTelegramReports, SUPPORTED_CURRENCIES, sendLoop, hA, hU, hok]
  · simp [mainSendTelegramReports, SUPPORTED_CURRENCIES, sendLoop, hA, hok]

theorem c9_witness :
    (∃ c ∈ SUPPORTED_CURRENCIES,
      (fun c => if c = "AMD"
        then [({ ticker := "T", isin := "I", maturity_date := "2026-01-01" } : Bond)]
        else []) c ≠ [])
    ∧ telegramCallOk = false
    ∧ mainSendTelegramReports (fun c => if c = "AMD"
        then [({ ticker := "T", isin := "I", maturity_date := "2026-01-01" } : Bond)]
        else []) = Except.error () := by
  have hex : ∃ c ∈ SUPPORTED_CURRENCIES,
      (fun c => if c = "AMD"
        then [({ ticker := "T", isin := "I", maturity_date := "2026-01-01" } : Bond)]
        else []) c ≠ [] := ⟨"AMD", by decide, by simp⟩
  exact ⟨hex, c9_theorem _ hex⟩

/-!
## Calculator and merge claims
-/

theorem mkRat_hundred : (mkRat 100 1 : ℚ) = 100 := by
  rw [Rat.mkRat_eq_div]
  norm_num

theorem yearsToMaturity_parse (asOf : Date) (s : String) (m : Date)
    (h : parseDate s = some m) :
    JapaneseYieldCalculator.yearsToMaturity asOf s
      = some (((dateOrdinal m : ℚ) - (dateOrdinal asOf : ℚ)) / (36525 / 100)) := by
  rw [JapaneseYieldCalculator.yearsToMaturity, h]
  show some _ = some _
  congr 1
  rw [qdiv_eq, qsub_eq, Rat.mkRat_eq_div, Rat.mkRat_eq_div, Rat.mkRat_eq_div]
  push_cast
  norm_num

theorem attachYield_japanese_yield (asOf : Date) (b : Bond) :
    (attachYield asOf b).japanese_yield = JapaneseYieldCalculator.calculate asOf b := rfl

theorem calculate_attachYield (asOf : Date) (b : Bond) :
    JapaneseYieldCalculator.calculate asOf (attachYield asOf b)
      = JapaneseYieldCalculator.calculate asOf b := rfl

theorem calculate_ne_none {asOf : Date} {b : Bond}
    (h : JapaneseYieldCalculator.calculate asOf b ≠ none) :
    b.ask_price ≠ none ∧ b.cpn_rate ≠ none ∧ b.par_value ≠ none ∧
    ∃ m, parseDate b.maturity_date = some m ∧ dateOrdinal asOf < dateOrdinal m := by
  rcases hap : b.ask_price with _ | ask
  · exact absurd (by simp [JapaneseYieldCalculator.calculate, hap]) h
  rcases hcr : b.cpn_rate with _ | cpn
  · exact absurd (by simp [JapaneseYieldCalculator.calculate, hap, hcr]) h
  rcases hpv : b.par_value with _ | par
  · exact absurd (by simp [JapaneseYieldCalculator.calculate, hap, hcr, hpv]) h
  rcases hpd : parseDate b.maturity_date with _ | m
  · exact absurd (by simp [JapaneseYieldCalculator.calculate, hap, hcr, hpv,
      JapaneseYieldCalculator.yearsToMaturity, hpd]) h
  refine ⟨by simp [hap], by simp [hcr], by simp [hpv], m, rfl, ?_⟩
  by_contra hord
  push_neg at hord
  apply h
  have hy := yearsToMaturity_parse asOf b.maturity_date m hpd
  have hy0 : ((dateOrdinal m : ℚ) - (dateOrdinal asOf : ℚ)) / (36525 / 100) ≤ 0 := by
    have hnum : ((dateOrdinal m : ℚ) - (dateOrdinal asOf : ℚ)) ≤ 0 :=
      sub_nonpos.mpr (by exact_mod_cast hord)
    exact div_nonpos_iff.mpr (Or.inr ⟨hnum, by norm_num⟩)
  simp [JapaneseYieldCalculator.calculate, hap, hcr, hpv, hy, hy0]

/-- C1 (amended): whenever ask price, coupon rate and par value are present
and the maturity date parses to a date strictly after the as-of date, the
computed yield is
`round(((cpn/100·par + (par − ask/100·par)/((maturity−asOf).days/365.25)) /
(ask/100·par)) · 100, 2)` when the actual price `ask/100·par` is positive
and `None` otherwise; the spec's end-to-end example (coupon `"9,5"`, par
`"1000"`, maturity 2026-01-01, ask 98.0, as-of 2025-01-01) yields `11.74`
(365 days / 365.25 makes the annualised gain slightly above 20, so the
2-decimal rounding lands on 11.74, not 11.73). -/
theorem c1_theorem :
    (∀ (asOf : Date) (b : Bond) (ask_price cpn_rate par_value : ℚ) (m : Date),
      b.ask_price = some ask_price → b.cpn_rate = some cpn_rate →
      b.par_value = some par_value → parseDate b.maturity_date = some m →
      dateOrdinal asOf < dateOrdinal m →
      JapaneseYieldCalculator.calculate asOf b
        = if 0 < ask_price / 100 * par_value then
            some (round2 ((cpn_rate / 100 * par_value
              + (par_value - ask_price / 100 * par_value)
                / (((dateOrdinal m : ℚ) - (dateOrdinal asOf : ℚ)) / (36525 / 100)))
              / (ask_price / 100 * par_value) * 100))
          else none)
    ∧ JapaneseYieldCalculator.calculate exampleAsOf exampleBond = some (mkRat 1174 100)
    ∧ (mkRat 1174 100 : ℚ) = 1174 / 100 := by
  refine ⟨?_, by decide, by rw [Rat.mkRat_eq_div]; norm_num⟩
  intro asOf b ask_price cpn_rate par_value m hap hcr hpv hpd hord
  have hy := yearsToMaturity_parse asOf b.maturity_date m hpd
  have hpos : 0 < ((dateOrdinal m : ℚ) - (dateOrdinal asOf : ℚ)) / (36525 / 100) :=
    div_pos (sub_pos.mpr (by exact_mod_cast hord)) (by norm_num)
  simp only [JapaneseYieldCalculator.calculate, hap, hcr, hpv, hy]
  rw [if_neg (not_le.mpr hpos)]
  simp only [qadd_eq, qsub_eq, qmul_eq, qdiv_eq, mkRat_hundred]

theorem c1_witness :
    exampleBond.ask_price = some (mkRat 98 1)
    ∧ exampleBond.cpn_rate = some (mkRat 19 2)
    ∧ exampleBond.par_value = some (mkRat 1000 1)
    ∧ parseDate exampleBond.maturity_date = some ⟨2026, 1, 1⟩
    ∧ dateOrdinal exampleAsOf < dateOrdinal ⟨2026, 1, 1⟩
    ∧ JapaneseYieldCalculator.calculate exampleAsOf exampleBond
        = if 0 < mkRat 98 1 / 100 * mkRat 1000 1 then
            some (round2 ((mkRat 19 2 / 100 * mkRat 1000 1
              + (mkRat 1000 1 - mkRat 98 1 / 100 * mkRat 1000 1)
                / (((dateOrdinal (⟨2026, 1, 1⟩ : Date) : ℚ)
                    - (dateOrdinal exampleAsOf : ℚ)) / (36525 / 100)))
              / (mkRat 98 1 / 100 * mkRat 1000 1) * 100))
          else none :=
  ⟨by decide, by decide, by decide, by decide, by decide,
    c1_theorem.1 exampleAsOf exampleBond (mkRat 98 1) (mkRat 19 2) (mkRat 1000 1)
      ⟨2026, 1, 1⟩ (by decide) (by decide) (by decide) (by decide) (by decide)⟩

/-- C1 counterexample: on the spec's end-to-end example the code computes
`11.74`, not `11.73` — the spec's `≈ 11.73` came from approximating
years-to-maturity by `1.0`, but `365 / 365.25` years makes the rounded
result `11.74`. -/
theorem c1_counterexample :
    JapaneseYieldCalculator.calculate exampleAsOf exampleBond = some (mkRat 1174 100)
    ∧ (mkRat 1174 100 : ℚ) = 1174 / 100
    ∧ JapaneseYieldCalculator.calculate exampleAsOf exampleBond ≠ some (1173 / 100) := by
  refine ⟨by decide, by rw [Rat.mkRat_eq_div]; norm_num, ?_⟩
  rw [show (1173 / 100 : ℚ) = mkRat 1173 100 by rw [Rat.mkRat_eq_div]; norm_num]
  decide

/-- Exhaustive mode, flattened: one bond per currency-matched instrument
with a truthy ISIN, each built from its latest fetched snapshot. -/
theorem analyzeAll_eq (asOf : Date) (currency : String)
    (fetchDetail : String → Option (List MarketSnapshot)) (instrs : List Instrument) :
    BondAnalyzer.analyzeAll asOf currency fetchDetail instrs
      = sortBonds ((instrs.filter (fun i => i.currency == some currency
            && i.isin.getD "" != "")).map
          (fun i => BondAnalyzer.createBondFromInstrument asOf i
            (getLatestMarketDataForInstrument fetchDetail (i.isin.getD "")))) := by
  simp only [BondAnalyzer.analyzeAll]
  congr 1
  induction instrs with
  | nil => rfl
  | cons i rest ih =>
    by_cases hc : (i.currency == some currency) = true
    · rcases hisin : i.isin with _ | s
      · simp [List.filter_cons, hc, hisin, List.filterMap_cons, ih]
      · by_cases hs : s = ""
        · simp [List.filter_cons, hc, hisin, hs, List.filterMap_cons, ih]
        · simp [List.filter_cons, hc, hisin, hs, List.filterMap_cons, ih]
    · have hc' : (i.currency == some currency && i.isin.getD "" != "") = false := by
        simp only [Bool.and_eq_false_iff]
        exact Or.inl (by simpa using hc)
      simp [List.filter_cons, hc, hc', ih]

theorem createBondFromInstrument_isin (asOf : Date) (i : Instrument)
    (md : Option MarketSnapshot) :
    (BondAnalyzer.createBondFromInstrument asOf i md).isin = i.isin.getD "" := rfl

theorem createBond_isin (asOf : Date) (instrs : List Instrument) (r : MarketRow) :
    (BondAnalyzer.createBond asOf instrs r).isin = r.isin.getD "" := rfl

/-- C2: a Bond produced by either acquisition mode with a set
`japanese_yield` has `ask_price`, `cpn_rate` and `par_value` all present and
a maturity date that parses and is strictly after the as-of date. -/
theorem c2_theorem (asOf : Date) (currency : String) (instrs : List Instrument)
    (market : List MarketRow) (fetchDetail : String → Option (List MarketSnapshot))
    (b : Bond)
    (hmem : b ∈ BondAnalyzer.analyze asOf currency instrs market
      ∨ b ∈ BondAnalyzer.analyzeAll asOf currency fetchDetail instrs)
    (hjy : b.japanese_yield ≠ none) :
    b.ask_price ≠ none ∧ b.cpn_rate ≠ none ∧ b.par_value ≠ none ∧
    ∃ m, parseDate b.maturity_date = some m ∧ dateOrdinal asOf < dateOrdinal m := by
  have hbase : ∃ b0, b = attachYield asOf b0 := by
    rcases hmem with h | h
    · simp only [BondAnalyzer.analyze] at h
      have h' := ((sortBonds_perm _).mem_iff).1 h
      rcases List.mem_map.1 h' with ⟨r, _, hb⟩
      exact ⟨_, hb.symm⟩
    · rw [analyzeAll_eq] at h
      have h' := ((sortBonds_perm _).mem_iff).1 h
      rcases List.mem_map.1 h' with ⟨i, _, hb⟩
      exact ⟨_, hb.symm⟩
  rcases hbase with ⟨b0, rfl⟩
  have hne0 : JapaneseYieldCalculator.calculate asOf b0 ≠ none := by
    rwa [attachYield_japanese_yield] at hjy
  have hne : JapaneseYieldCalculator.calculate asOf (attachYield asOf b0) ≠ none := by
    rwa [calculate_attachYield]
  exact calculate_ne_none hne

theorem c2_witness :
    (BondAnalyzer.createBondFromInstrument exampleAsOf exampleInstrument
        (some exampleSnapshot)).ask_price ≠ none
    ∧ (BondAnalyzer.createBondFromInstrument exampleAsOf exampleInstrument
        (some exampleSnapshot)).cpn_rate ≠ none
    ∧ (BondAnalyzer.createBondFromInstrument exampleAsOf exampleInstrument
        (some exampleSnapshot)).par_value ≠ none
    ∧ ∃ m, parseDate (BondAnalyzer.createBondFromInstrument exampleAsOf
        exampleInstrument (some exampleSnapshot)).maturity_date = some m
        ∧ dateOrdinal exampleAsOf < dateOrdinal m :=
  c2_theorem exampleAsOf "AMD" [exampleInstrument] []
    (fun _ => some [exampleSnapshot]) _
    (Or.inr (by decide)) (by decide)

/-- C6 (amended): a record without an identifier is excluded only in
exhaustive mode, where every produced Bond has a nonempty ISIN and the
output identifiers are exactly (a permutation of) the currency-matched
truthy-ISIN instrument identifiers — pairwise distinct whenever those are.
In same-day mode every currency-matched market row becomes a Bond, a
missing ISIN defaulting to `""`, and the output identifiers are exactly the
rows' identifiers, so duplicate driving identifiers yield duplicate Bonds. -/
theorem c6_theorem :
    (∀ (asOf : Date) (currency : String)
      (fetchDetail : String → Option (List MarketSnapshot))
      (instrs : List Instrument) (b : Bond),
      b ∈ BondAnalyzer.analyzeAll asOf currency fetchDetail instrs → b.isin ≠ "")
    ∧ (∀ (asOf : Date) (currency : String)
      (fetchDetail : String → Option (List MarketSnapshot))
      (instrs : List Instrument),
      List.Perm ((BondAnalyzer.analyzeAll asOf currency fetchDetail instrs).map Bond.isin)
        ((instrs.filter (fun i => i.currency == some currency
          && i.isin.getD "" != "")).map (fun i => i.isin.getD "")))
    ∧ (∀ (asOf : Date) (currency : String)
      (fetchDetail : String → Option (List MarketSnapshot))
      (instrs : List Instrument),
      ((instrs.filter (fun i => i.currency == some currency
          && i.isin.getD "" != "")).map (fun i => i.isin.getD "")).Nodup →
      ((BondAnalyzer.analyzeAll asOf currency fetchDetail instrs).map Bond.isin).Nodup)
    ∧ (∀ (asOf : Date) (currency : String) (instrs : List Instrument)
      (market : List MarketRow),
      List.Perm ((BondAnalyzer.analyze asOf currency instrs market).map Bond.isin)
        ((market.filter (fun r => r.cur == some currency)).map
          (fun r => r.isin.getD ""))) := by
  have hperm_all : ∀ (asOf : Date) (currency : String)
      (fetchDetail : String → Option (List MarketSnapshot))
      (instrs : List Instrument),
      List.Perm ((BondAnalyzer.analyzeAll asOf currency fetchDetail instrs).map Bond.isin)
        ((instrs.filter (fun i => i.currency == some currency
          && i.isin.getD "" != "")).map (fun i => i.isin.getD "")) := by
    intro asOf currency fetchDetail instrs
    rw [analyzeAll_eq]
    refine ((sortBonds_perm _).map Bond.isin).trans ?_
    rw [List.map_map]
    exact List.Perm.refl _
  refine ⟨?_, hperm_all, ?_, ?_⟩
  · intro asOf currency fetchDetail instrs b hb
    rw [analyzeAll_eq] at hb
    have hb' := ((sortBonds_perm _).mem_iff).1 hb
    rcases List.mem_map.1 hb' with ⟨i, hi, rfl⟩
    rcases List.mem_filter.1 hi with ⟨_, hpred⟩
    simp only [Bool.and_eq_true] at hpred
    rw [createBondFromInstrument_isin]
    simpa using hpred.2
  · intro asOf currency fetchDetail instrs hnodup
    exact ((hperm_all asOf currency fetchDetail instrs).nodup_iff).2 hnodup
  · intro asOf currency instrs market
    simp only [BondAnalyzer.analyze]
    refine ((sortBonds_perm _).map Bond.isin).trans ?_
    rw [List.map_map]
    exact List.Perm.refl _

/-- C6 counterexample: in same-day mode a market row without an ISIN still
becomes a Bond (with identifier `""`), and two market rows sharing an ISIN
produce two Bonds with the same identifier, so the output identifiers are
not pairwise distinct. -/
theorem c6_counterexample :
    (BondAnalyzer.analyze exampleAsOf "AMD" [{ isin := some "Z9", currency := some "AMD" }]
        [{ cur := some "AMD" }]).map Bond.isin = [""]
    ∧ (BondAnalyzer.analyze exampleAsOf "AMD" [{ isin := some "Z9", currency := some "AMD" }]
        [{ isin := some "X1", cur := some "AMD" },
         { isin := some "X1", cur := some "AMD" }]).map Bond.isin = ["X1", "X1"]
    ∧ ¬ ((BondAnalyzer.analyze exampleAsOf "AMD"
        [{ isin := some "Z9", currency := some "AMD" }]
        [{ isin := some "X1", cur := some "AMD" },
         { isin := some "X1", cur := some "AMD" }]).map Bond.isin).Nodup := by
  decide

theorem c6_witness :
    ((BondAnalyzer.createBondFromInstrument exampleAsOf exampleInstrument
        (getLatestMarketDataForInstrument (fun _ => none) "AMGOOD1")).isin ≠ "")
    ∧ ((([exampleInstrument].filter (fun i => i.currency == some "AMD"
          && i.isin.getD "" != "")).map (fun i => i.isin.getD "")).Nodup
        → ((BondAnalyzer.analyzeAll exampleAsOf "AMD" (fun _ => none)
          [exampleInstrument]).map Bond.isin).Nodup)
    ∧ ((BondAnalyzer.analyzeAll exampleAsOf "AMD" (fun _ => none)
        [exampleInstrument]).map Bond.isin).Nodup :=
  ⟨c6_theorem.1 exampleAsOf "AMD" (fun _ => none) [exampleInstrument] _ (by decide),
   c6_theorem.2.2.1 exampleAsOf "AMD" (fun _ => none) [exampleInstrument],
   c6_theorem.2.2.1 exampleAsOf "AMD" (fun _ => none) [exampleInstrument] (by decide)⟩

/-- C7: in exhaustive mode every currency-matched instrument with a truthy
identifier yields exactly one Bond even when its historical fetch fails or
returns zero snapshots; that Bond then has `ask_price`, `bid_price`,
`ask_yield` and `japanese_yield` all `None`, and the failure does not abort
the run (the run's length equals the number of qualifying instruments). -/
theorem c7_theorem (asOf : Date) (currency : String)
    (fetchDetail : String → Option (List MarketSnapshot)) (instrs : List Instrument)
    (i : Instrument) (s : String)
    (hi : i ∈ instrs) (hcur : i.currency = some currency)
    (hisin : i.isin = some s) (hs : s ≠ "")
    (hfetch : fetchDetail s = none ∨ fetchDetail s = some []) :
    ((BondAnalyzer.createBondFromInstrument asOf i none).ask_price = none
      ∧ (BondAnalyzer.createBondFromInstrument asOf i none).bid_price = none
      ∧ (BondAnalyzer.createBondFromInstrument asOf i none).ask_yield = none
      ∧ (BondAnalyzer.createBondFromInstrument asOf i none).japanese_yield = none)
    ∧ BondAnalyzer.createBondFromInstrument asOf i none
        ∈ BondAnalyzer.analyzeAll asOf currency fetchDetail instrs
    ∧ (BondAnalyzer.analyzeAll asOf currency fetchDetail instrs).length
        = (instrs.filter (fun j => j.currency == some currency
            && j.isin.getD "" != "")).length := by
  have hlat : getLatestMarketDataForInstrument fetchDetail s = none := by
    rcases hfetch with h | h <;> simp [getLatestMarketDataForInstrument, h, latestSnapshot]
  refine ⟨⟨rfl, rfl, rfl, rfl⟩, ?_, ?_⟩
  · rw [analyzeAll_eq]
    refine ((sortBonds_perm _).mem_iff).2 ?_
    refine List.mem_map.2 ⟨i, List.mem_filter.2 ⟨hi, ?_⟩, ?_⟩
    · simp [hcur, hisin, hs]
    · rw [hisin]
      show BondAnalyzer.createBondFromInstrument asOf i
        (getLatestMarketDataForInstrument fetchDetail s) = _
      rw [hlat]
  · rw [analyzeAll_eq, (sortBonds_perm _).length_eq, List.length_map]

theorem c7_witness :
    ((BondAnalyzer.createBondFromInstrument exampleAsOf exampleInstrument none).ask_price = none
      ∧ (BondAnalyzer.createBondFromInstrument exampleAsOf exampleInstrument none).bid_price = none
      ∧ (BondAnalyzer.createBondFromInstrument exampleAsOf exampleInstrument none).ask_yield = none
      ∧ (BondAnalyzer.createBondFromInstrument exampleAsOf exampleInstrument none).japanese_yield
          = none)
    ∧ BondAnalyzer.createBondFromInstrument exampleAsOf exampleInstrument none
        ∈ BondAnalyzer.analyzeAll exampleAsOf "AMD" (fun _ => none) [exampleInstrument]
    ∧ (BondAnalyzer.analyzeAll exampleAsOf "AMD" (fun _ => none)
        [exampleInstrument]).length
        = ([exampleInstrument].filter (fun j => j.currency == some "AMD"
            && j.isin.getD "" != "")).length :=
  c7_theorem exampleAsOf "AMD" (fun _ => none) [exampleInstrument]
    exampleInstrument "AMGOOD1" (by decide) (by decide) (by decide) (by decide)
    (Or.inl rfl)

end AMX
